import Mathlib

/-!
Shallow embedding of the claude-maestro project-catalog persistence layer:
the SQLite schema (schema.sql), the data-access layer (ProjectRepository),
the business-rule layer (ProjectManager) and the connection lifecycle
(DatabaseManager).  Tables are modelled as lists of rows; a freshly
inserted row is appended at the end of its table, matching SQLite's rowid
scan order (new rowids always exceed all live rowids).  Fallible SQL
statements return Except; better-sqlite3 transactions are modelled by the
Except chain: the first failing statement aborts the chain and the caller
keeps the pre-transaction state (rollback).
-/

/-- Row of the projects table: id TEXT PRIMARY KEY, name TEXT NOT NULL
UNIQUE COLLATE NOCASE, created_at, updated_at. -/
structure ProjectRow where
  id : String
  name : String
  created_at : Nat
  updated_at : Nat
deriving DecidableEq

/-- Row of the project_tags table: PRIMARY KEY (project_id, tag),
FOREIGN KEY project_id ON DELETE CASCADE. -/
structure TagRow where
  project_id : String
  tag : String
deriving DecidableEq

/-- Row of the project_repositories table. -/
structure RepoRow where
  id : String
  project_id : String
  name : Option String
  url : String
  default_branch : Option String
  provider : Option String
  created_at : Nat
deriving DecidableEq

/-- The whole SQLite database: four tables, app_metadata as key/value rows. -/
structure DBState where
  projects : List ProjectRow
  project_tags : List TagRow
  project_repositories : List RepoRow
  app_metadata : List (String × String)
deriving DecidableEq

/-- State after schema.sql ran on an empty file: empty tables and the two
seeded metadata rows (schema_version = 1, active_project_id = "null"). -/
def seededState : DBState :=
  { projects := []
    project_tags := []
    project_repositories := []
    app_metadata := [("schema_version", "1"), ("active_project_id", "null")] }

deriving instance DecidableEq for Except

/-- ASCII lower-casing of one character, as SQLite's NOCASE collation folds
only A-Z. -/
def asciiLowerChar (c : Char) : Char :=
  if 'A' ≤ c ∧ c ≤ 'Z' then Char.ofNat (c.toNat + 32) else c

/-- ASCII lower-casing of a string (NOCASE collation key). -/
def asciiLower (s : String) : String :=
  String.mk (s.data.map asciiLowerChar)

/-- SQLite NOCASE equality of two strings. -/
def nocaseEq (a b : String) : Bool :=
  asciiLower a == asciiLower b

/-- The characters JavaScript's String.prototype.trim strips (the common
ASCII whitespace subset). -/
def isJsWhitespace (c : Char) : Bool :=
  c == ' ' || c == '\t' || c == '\n' || c == '\r'

/-- JavaScript's String.prototype.trim: whitespace removed from both ends. -/
def jsTrim (s : String) : String :=
  String.mk (((s.data.dropWhile isJsWhitespace).reverse.dropWhile
    isJsWhitespace).reverse)

/-- JavaScript `x || null` on an optional string: null and the empty string
are falsy and map to null. -/
def jsStrOrNone : Option String → Option String
  | none => none
  | some s => if s == "" then none else some s

/-- Input shape of one repository entry in ProjectFormData. -/
structure RepositoryInput where
  name : Option String
  url : String
  defaultBranch : Option String
  provider : Option String
deriving DecidableEq

/-- ProjectFormData from shared/types: validated creation payload. -/
structure ProjectFormData where
  name : String
  tags : List String
  repositories : List RepositoryInput
deriving DecidableEq

/-- The TypeScript type Partial of ProjectFormData: each field optionally
present. -/
structure ProjectFormDataPatch where
  name : Option String
  tags : Option (List String)
  repositories : Option (List RepositoryInput)
deriving DecidableEq

/-- Hydrated Repository value object returned to callers. -/
structure Repository where
  id : String
  name : Option String
  url : String
  defaultBranch : Option String
  provider : Option String
deriving DecidableEq

/-- Hydrated Project aggregate returned to callers. -/
structure Project where
  id : String
  name : String
  tags : List String
  repositories : List Repository
  createdAt : Nat
  updatedAt : Nat
deriving DecidableEq

/-- A member of the validation-error list built by
ProjectManager.validateProjectData. -/
structure ValidationError where
  field : String
  message : String
deriving DecidableEq

/-- Domain-level failure, classified by origin as the thrown Error messages
are in the TypeScript source: validation aggregate, duplicate-name check,
not-found pre-check, and storage errors wrapped by the repository. -/
inductive DomainError where
  | validationFailed (errs : List ValidationError)
  | duplicateName (name : String)
  | notFound (id : String)
  | storage (msg : String)
deriving DecidableEq

/-- INSERT INTO projects: fails on the id primary key or on the UNIQUE
COLLATE NOCASE name constraint; otherwise appends the row. -/
def insertProjectRow (s : DBState) (pid name : String) (now : Nat) :
    Except String DBState :=
  if s.projects.any (fun r => r.id == pid) then
    .error "UNIQUE constraint failed: projects.id"
  else if s.projects.any (fun r => nocaseEq r.name name) then
    .error "UNIQUE constraint failed: projects.name"
  else
    .ok { s with projects := s.projects ++ [⟨pid, name, now, now⟩] }

/-- INSERT INTO project_tags: fails on the (project_id, tag) primary key or
the foreign key to projects; otherwise appends the row. -/
def insertTagRow (s : DBState) (pid tag : String) : Except String DBState :=
  if s.project_tags.any (fun t => t.project_id == pid && t.tag == tag) then
    .error "UNIQUE constraint failed: project_tags.project_id, project_tags.tag"
  else if !(s.projects.any (fun r => r.id == pid)) then
    .error "FOREIGN KEY constraint failed"
  else
    .ok { s with project_tags := s.project_tags ++ [⟨pid, tag⟩] }

/-- The tag-insertion loop of create/update: one INSERT per tag, in order. -/
def insertTagRows (pid : String) (tags : List String) (s : DBState) :
    Except String DBState :=
  match tags with
  | [] => .ok s
  | t :: rest =>
      match insertTagRow s pid t with
      | .error e => .error e
      | .ok s1 => insertTagRows pid rest s1

/-- INSERT INTO project_repositories: fails on the id primary key or the
foreign key; `repo.name || null` style coercions applied as in the source. -/
def insertRepoRow (s : DBState) (rid pid : String) (repo : RepositoryInput)
    (now : Nat) : Except String DBState :=
  if s.project_repositories.any (fun r => r.id == rid) then
    .error "UNIQUE constraint failed: project_repositories.id"
  else if !(s.projects.any (fun r => r.id == pid)) then
    .error "FOREIGN KEY constraint failed"
  else
    .ok { s with project_repositories := s.project_repositories ++
      [⟨rid, pid, jsStrOrNone repo.name, repo.url,
        jsStrOrNone repo.defaultBranch, jsStrOrNone repo.provider, now⟩] }

/-- The repository-insertion loop: each entry gets a freshly generated id,
modelled by the generator `gen` applied to the entry's position. -/
def insertRepoRows (pid : String) (gen : Nat → String) (now : Nat)
    (repos : List RepositoryInput) (i : Nat) (s : DBState) :
    Except String DBState :=
  match repos with
  | [] => .ok s
  | repo :: rest =>
      match insertRepoRow s (gen i) pid repo now with
      | .error e => .error e
      | .ok s1 => insertRepoRows pid gen now rest (i + 1) s1

/-- SELECT ... FROM projects WHERE id = ? (raw row). -/
def findProjectRow (s : DBState) (id : String) : Option ProjectRow :=
  s.projects.find? (fun r => r.id == id)

/-- SELECT ... FROM projects WHERE name = ? COLLATE NOCASE (raw row). -/
def findProjectRowByName (s : DBState) (name : String) : Option ProjectRow :=
  s.projects.find? (fun r => nocaseEq r.name name)

/-- Stable insertion of a repository row into a list ordered by created_at
ascending (ties keep the earlier row first, matching rowid scan order). -/
def insertByCreatedAt (x : RepoRow) : List RepoRow → List RepoRow
  | [] => [x]
  | y :: ys =>
      if x.created_at < y.created_at then x :: y :: ys
      else y :: insertByCreatedAt x ys

/-- ORDER BY created_at ASC over the filtered repository rows. -/
def sortByCreatedAt (l : List RepoRow) : List RepoRow :=
  l.foldr insertByCreatedAt []

/-- ProjectRepository.hydrateProject: one query for the project's tags (no
ORDER BY: rowid scan order) and one ordered query for its repositories,
assembled into the aggregate. -/
def hydrateProject (s : DBState) (row : ProjectRow) : Project :=
  let tags := (s.project_tags.filter (fun t => t.project_id == row.id)).map
    (fun t => t.tag)
  let repoRows := sortByCreatedAt
    (s.project_repositories.filter (fun r => r.project_id == row.id))
  let repositories := repoRows.map (fun r =>
    { id := r.id
      name := jsStrOrNone r.name
      url := r.url
      defaultBranch := jsStrOrNone r.default_branch
      provider := jsStrOrNone r.provider })
  { id := row.id
    name := row.name
    tags := tags
    repositories := repositories
    createdAt := row.created_at
    updatedAt := row.updated_at }

/-- ProjectRepository.findById. -/
def ProjectRepository.findById (s : DBState) (id : String) : Option Project :=
  (findProjectRow s id).map (hydrateProject s)

/-- ProjectRepository.findByName (case-insensitive). -/
def ProjectRepository.findByName (s : DBState) (name : String) :
    Option Project :=
  (findProjectRowByName s name).map (hydrateProject s)

/-- ProjectRepository.findAll: ORDER BY created_at DESC, hydrated. -/
def ProjectRepository.findAll (s : DBState) : List Project :=
  ((sortByCreatedAt' s.projects).map (hydrateProject s))
where
  insertDesc (x : ProjectRow) : List ProjectRow → List ProjectRow
    | [] => [x]
    | y :: ys =>
        if x.created_at > y.created_at then x :: y :: ys
        else y :: insertDesc x ys
  sortByCreatedAt' (l : List ProjectRow) : List ProjectRow :=
    l.foldr insertDesc []

/-- ProjectRepository.create: one transaction inserting the project row,
the tag rows and the repository rows; on any failure the transaction rolls
back (the caller-visible state stays `s`) and the error is wrapped as a
storage error.  After commit the aggregate is re-read by id. -/
def ProjectRepository.create (s : DBState) (pid : String) (gen : Nat → String)
    (now : Nat) (data : ProjectFormData) :
    DBState × Except DomainError Project :=
  let tx : Except String DBState :=
    match insertProjectRow s pid data.name now with
    | .error e => .error e
    | .ok s1 =>
        match insertTagRows pid data.tags s1 with
        | .error e => .error e
        | .ok s2 => insertRepoRows pid gen now data.repositories 0 s2
  match tx with
  | .error e => (s, .error (.storage ("Failed to create project: " ++ e)))
  | .ok s3 =>
      match ProjectRepository.findById s3 pid with
      | none =>
          (s3, .error (.storage
            "Failed to create project: Failed to retrieve created project"))
      | some p => (s3, .ok p)

/-- The per-row effect of UPDATE ... SET name = ?, updated_at = ?
WHERE id = ?. -/
def renameRow (id name : String) (now : Nat) (r : ProjectRow) : ProjectRow :=
  if r.id == id then { r with name := name, updated_at := now } else r

/-- UPDATE projects SET name = ?, updated_at = ? WHERE id = ?: a no-op when
the id does not exist; fails if the new name collides (NOCASE) with a
different row's name. -/
def updateProjectNameRow (s : DBState) (id name : String) (now : Nat) :
    Except String DBState :=
  if (s.projects.any (fun r => r.id == id)) then
    if s.projects.any (fun r => !(r.id == id) && nocaseEq r.name name) then
      .error "UNIQUE constraint failed: projects.name"
    else
      .ok { s with projects := s.projects.map (renameRow id name now) }
  else
    .ok s

/-- The per-row effect of UPDATE ... SET updated_at = ? WHERE id = ?. -/
def touchRow (id : String) (now : Nat) (r : ProjectRow) : ProjectRow :=
  if r.id == id then { r with updated_at := now } else r

/-- UPDATE projects SET updated_at = ? WHERE id = ?. -/
def touchProjectRow (s : DBState) (id : String) (now : Nat) : DBState :=
  { s with projects := s.projects.map (touchRow id now) }

/-- DELETE FROM project_tags WHERE project_id = ?. -/
def deleteTagsOf (s : DBState) (id : String) : DBState :=
  { s with project_tags :=
      s.project_tags.filter (fun t => !(t.project_id == id)) }

/-- DELETE FROM project_repositories WHERE project_id = ?. -/
def deleteReposOf (s : DBState) (id : String) : DBState :=
  { s with project_repositories :=
      s.project_repositories.filter (fun r => !(r.project_id == id)) }

/-- ProjectRepository.update: one transaction that updates the name (or
only the timestamp), replaces the tag rows if tags are provided, and
replaces the repository rows (with fresh ids) if repositories are provided;
rollback on failure; afterwards the aggregate is re-read and a missing id
surfaces as a wrapped error. -/
def ProjectRepository.update (s : DBState) (id : String) (gen : Nat → String)
    (now : Nat) (data : ProjectFormDataPatch) :
    DBState × Except DomainError Project :=
  let step1 : Except String DBState :=
    match data.name with
    | some n => updateProjectNameRow s id n now
    | none => .ok (touchProjectRow s id now)
  let tx : Except String DBState :=
    match step1 with
    | .error e => .error e
    | .ok s1 =>
        let step2 : Except String DBState :=
          match data.tags with
          | some ts => insertTagRows id ts (deleteTagsOf s1 id)
          | none => .ok s1
        match step2 with
        | .error e => .error e
        | .ok s2 =>
            match data.repositories with
            | some rs => insertRepoRows id gen now rs 0 (deleteReposOf s2 id)
            | none => .ok s2
  match tx with
  | .error e => (s, .error (.storage ("Failed to update project: " ++ e)))
  | .ok s3 =>
      match findProjectRow s3 id with
      | none =>
          (s3, .error (.storage
            "Failed to update project: Project not found after update"))
      | some row => (s3, .ok (hydrateProject s3 row))

/-- ProjectRepository.delete: DELETE FROM projects WHERE id = ?; zero
affected rows surfaces as a wrapped error; the schema's ON DELETE CASCADE
removes the project's tag and repository rows. -/
def ProjectRepository.delete (s : DBState) (id : String) :
    DBState × Except DomainError Unit :=
  if s.projects.any (fun r => r.id == id) then
    ({ s with
        projects := s.projects.filter (fun r => !(r.id == id))
        project_tags := s.project_tags.filter (fun t => !(t.project_id == id))
        project_repositories := s.project_repositories.filter
          (fun r => !(r.project_id == id)) }, .ok ())
  else
    (s, .error (.storage "Failed to delete project: Project not found"))

/-- SELECT value FROM app_metadata WHERE key = ?. -/
def metaLookup (s : DBState) (k : String) : Option String :=
  (s.app_metadata.find? (fun kv => kv.1 == k)).map (fun kv => kv.2)

/-- ProjectRepository.getActiveProjectId: a missing row or the literal
sentinel string "null" both read back as null. -/
def ProjectRepository.getActiveProjectId (s : DBState) : Option String :=
  match metaLookup s "active_project_id" with
  | none => none
  | some v => if v == "null" then none else some v

/-- The stored form of the active pointer, JavaScript `id || 'null'`: null
and the empty string are falsy and map to the literal sentinel "null". -/
def activeSentinel (id : Option String) : String :=
  match id with
  | none => "null"
  | some x => if x == "" then "null" else x

/-- ProjectRepository.setActiveProjectId: stores the sentinel value in the
active_project_id metadata row (an UPDATE, so only an existing row). -/
def ProjectRepository.setActiveProjectId (s : DBState) (id : Option String) :
    DBState :=
  { s with app_metadata := s.app_metadata.map (fun kv =>
      if kv.1 == "active_project_id" then (kv.1, activeSentinel id) else kv) }

/-- ProjectManager.validateProjectData: collects all violations, tagged
with the offending field path. -/
def validateProjectData (data : ProjectFormDataPatch) : List ValidationError :=
  let nameErrs : List ValidationError :=
    match data.name with
    | none => []
    | some n =>
        if n == "" || (jsTrim n).length == 0 then
          [⟨"name", "Project name is required"⟩]
        else if n.length > 255 then
          [⟨"name", "Project name must be 255 characters or less"⟩]
        else []
  let tagErrs : List ValidationError :=
    match data.tags with
    | none => []
    | some ts =>
        ts.enum.filterMap (fun it =>
          if (jsTrim it.2).length == 0 then
            some ⟨"tags[" ++ toString it.1 ++ "]",
              "Tag must be a non-empty string"⟩
          else none)
  let repoErrs : List ValidationError :=
    match data.repositories with
    | none => []
    | some rs =>
        rs.enum.filterMap (fun ir =>
          if ir.2.url == "" || (jsTrim ir.2.url).length == 0 then
            some ⟨"repositories[" ++ toString ir.1 ++ "].url",
              "Repository URL is required"⟩
          else none)
  nameErrs ++ tagErrs ++ repoErrs

/-- View of a full ProjectFormData as the patch type, every field present,
as passed by createProject to validateProjectData. -/
def ProjectFormData.toPatch (fd : ProjectFormData) : ProjectFormDataPatch :=
  ⟨some fd.name, some fd.tags, some fd.repositories⟩

/-- ProjectManager.createProject: validate, pre-check the name for a
case-insensitive collision, then delegate to the repository. -/
def ProjectManager.createProject (s : DBState) (pid : String)
    (gen : Nat → String) (now : Nat) (fd : ProjectFormData) :
    DBState × Except DomainError Project :=
  if (validateProjectData fd.toPatch).isEmpty then
    match ProjectRepository.findByName s fd.name with
    | some _ => (s, .error (.duplicateName fd.name))
    | none => ProjectRepository.create s pid gen now fd
  else
    (s, .error (.validationFailed (validateProjectData fd.toPatch)))

/-- The duplicate-name re-check of updateProject: only when the name is
present, truthy, and strictly different from the current one; a hit on a
different project id is a duplicate-name failure. -/
def dupNameCheck (s : DBState) (id : String) (existingName : String) :
    Option String → Option DomainError
  | some n =>
      if !(n == "") && !(n == existingName) then
        match ProjectRepository.findByName s n with
        | some d => if !(d.id == id) then some (.duplicateName n) else none
        | none => none
      else none
  | none => none

/-- ProjectManager.updateProject: validate, require the target to exist,
re-check the name for a collision, then delegate to the repository. -/
def ProjectManager.updateProject (s : DBState) (id : String)
    (gen : Nat → String) (now : Nat) (fd : ProjectFormDataPatch) :
    DBState × Except DomainError Project :=
  if (validateProjectData fd).isEmpty then
    match ProjectRepository.findById s id with
    | none => (s, .error (.notFound id))
    | some existing =>
        match dupNameCheck s id existing.name fd.name with
        | some e => (s, .error e)
        | none => ProjectRepository.update s id gen now fd
  else
    (s, .error (.validationFailed (validateProjectData fd)))

/-- ProjectManager.deleteProject: require the target to exist, clear the
active pointer first when it references the target, then delete. -/
def ProjectManager.deleteProject (s : DBState) (id : String) :
    DBState × Except DomainError Unit :=
  match ProjectRepository.findById s id with
  | none => (s, .error (.notFound id))
  | some _ =>
      if ProjectRepository.getActiveProjectId s = some id then
        ProjectRepository.delete
          (ProjectRepository.setActiveProjectId s none) id
      else
        ProjectRepository.delete s id

/-- ProjectManager.setActiveProjectId: a non-null id must resolve to an
existing project; null always succeeds and clears the pointer. -/
def ProjectManager.setActiveProjectId (s : DBState) (id : Option String) :
    DBState × Except DomainError Unit :=
  match id with
  | some x =>
      match ProjectRepository.findById s x with
      | none => (s, .error (.notFound x))
      | some _ => (ProjectRepository.setActiveProjectId s (some x), .ok ())
  | none => (ProjectRepository.setActiveProjectId s none, .ok ())

/-- One Manager-level operation, with the identifiers randomUUID would
generate and the Date.now timestamp supplied as data. -/
inductive MOp where
  | create (pid : String) (gen : Nat → String) (now : Nat)
      (fd : ProjectFormData)
  | update (id : String) (gen : Nat → String) (now : Nat)
      (fd : ProjectFormDataPatch)
  | delete (id : String)
  | setActive (id : Option String)

/-- The database state reached after one Manager operation (a thrown error
leaves the state as the operation's first component reports it). -/
def mstep (s : DBState) : MOp → DBState
  | .create pid gen now fd => (ProjectManager.createProject s pid gen now fd).1
  | .update id gen now fd => (ProjectManager.updateProject s id gen now fd).1
  | .delete id => (ProjectManager.deleteProject s id).1
  | .setActive id => (ProjectManager.setActiveProjectId s id).1

/-- The database state reached after a sequence of Manager operations. -/
def mrun (s : DBState) : List MOp → DBState
  | [] => s
  | op :: rest => mrun (mstep s op) rest

/-- The referential-consistency invariant: the active-project pointer is
absent or names a project row that exists. -/
def activeOk (s : DBState) : Prop :=
  ProjectRepository.getActiveProjectId s = none ∨
  ∃ r ∈ s.projects, ProjectRepository.getActiveProjectId s = some r.id

/-- The observable configuration of a better-sqlite3 connection handle as
DatabaseManager sets it up: the two pragmas and whether schema.sql has been
executed on it. -/
structure DBHandle where
  foreignKeysOn : Bool
  walMode : Bool
  schemaApplied : Bool
deriving DecidableEq

/-- Environment outcomes for one initialize() call: whether the connection
opens, whether schema.sql exists on disk, and whether executing it
succeeds. -/
structure DbEnv where
  openOk : Bool
  schemaFileExists : Bool
  execOk : Bool
deriving DecidableEq

/-- Errors surfaced by DatabaseManager. -/
inductive DbError where
  | initFailed (msg : String)
  | notInitialized
deriving DecidableEq

/-- DatabaseManager.runSchema: throws when schema.sql is missing or when
executing it fails; the catch block logs and rethrows unchanged. -/
def DatabaseManager.runSchema (env : DbEnv) : Except String Unit :=
  if !env.schemaFileExists then .error "Schema file not found"
  else if !env.execOk then .error "Schema execution failed"
  else .ok ()

/-- DatabaseManager.initDb: warns and returns when this.db is already
set; otherwise opens the connection, assigns this.db, sets the pragmas and
runs the schema, wrapping any failure.  The catch block does not reset
this.db, so a schema failure leaves the opened handle assigned. -/
def DatabaseManager.initDb (db : Option DBHandle) (env : DbEnv) :
    Option DBHandle × Except DbError Unit :=
  match db with
  | some h => (some h, .ok ())
  | none =>
      if !env.openOk then
        (none, .error (.initFailed "Database initialization failed: open failed"))
      else
        let h : DBHandle :=
          { foreignKeysOn := true, walMode := true, schemaApplied := false }
        match DatabaseManager.runSchema env with
        | .error e =>
            (some h, .error (.initFailed ("Database initialization failed: " ++ e)))
        | .ok _ => (some { h with schemaApplied := true }, .ok ())

/-- DatabaseManager.getDatabase: the not-initialized guard. -/
def DatabaseManager.getDatabase (db : Option DBHandle) :
    Except DbError DBHandle :=
  match db with
  | none => .error .notInitialized
  | some h => .ok h

/-- The rows the repository-insertion loop writes for a given input list,
starting at generator position i. -/
def repoRowsFor (pid : String) (gen : Nat → String) (now : Nat) :
    List RepositoryInput → Nat → List RepoRow
  | [], _ => []
  | repo :: rest, i =>
      ⟨gen i, pid, jsStrOrNone repo.name, repo.url,
        jsStrOrNone repo.defaultBranch, jsStrOrNone repo.provider, now⟩ ::
      repoRowsFor pid gen now rest (i + 1)

/-- The tag texts stored for one project, in scan order. -/
def pidTags (s : DBState) (pid : String) : List String :=
  (s.project_tags.filter (fun t => t.project_id == pid)).map (fun t => t.tag)

lemma nocaseEq_iff {a b : String} :
    nocaseEq a b = true ↔ asciiLower a = asciiLower b := by
  simp [nocaseEq]

lemma nocaseEq_refl (a : String) : nocaseEq a a = true := by
  simp [nocaseEq]

lemma find?_append_right {α} (p : α → Bool) (l : List α) (x : α)
    (hl : l.any p = false) (hx : p x = true) :
    (l ++ [x]).find? p = some x := by
  induction l with
  | nil => simp [List.find?, hx]
  | cons a t ih =>
      simp only [List.any_cons, Bool.or_eq_false_iff] at hl
      simp [List.find?, hl.1, ih hl.2]

lemma find?_eq_some_unique {α} (p : α → Bool) (l : List α) (x : α)
    (hx : x ∈ l) (hpx : p x = true)
    (huniq : ∀ y ∈ l, p y = true → y = x) :
    l.find? p = some x := by
  induction l with
  | nil => cases hx
  | cons a t ih =>
      by_cases hpa : p a = true
      · have hax := huniq a (List.mem_cons_self a t) hpa
        subst hax
        simp [List.find?, hpa]
      · have ha : p a = false := by
          cases h : p a
          · rfl
          · exact absurd h hpa
        have hxt : x ∈ t := by
          rcases List.mem_cons.mp hx with h | h
          · subst h; exact absurd hpx hpa
          · exact h
        simp only [List.find?, ha]
        exact ih hxt (fun y hy hpy => huniq y (List.mem_cons_of_mem _ hy) hpy)

lemma any_and_filter_not {α} (q p : α → Bool) (l : List α) :
    (l.filter (fun x => !(q x))).any (fun x => q x && p x) = false := by
  induction l with
  | nil => simp
  | cons a t ih =>
      cases hq : q a
      · simp [List.filter_cons, hq, ih]
      · simp [List.filter_cons, hq, ih]

lemma filter_filter_not {α} (q : α → Bool) (l : List α) :
    (l.filter (fun x => !(q x))).filter q = [] := by
  induction l with
  | nil => simp
  | cons a t ih =>
      cases hq : q a
      · simp [List.filter_cons, hq, ih]
      · simp [List.filter_cons, hq, ih]

lemma insertProjectRow_ok {s : DBState} {pid name : String} {now : Nat}
    {s' : DBState} (h : insertProjectRow s pid name now = .ok s') :
    s' = { s with projects := s.projects ++ [⟨pid, name, now, now⟩] } ∧
    s.projects.any (fun r => r.id == pid) = false ∧
    s.projects.any (fun r => nocaseEq r.name name) = false := by
  unfold insertProjectRow at h
  split at h
  · exact absurd h (by simp)
  · split at h
    · exact absurd h (by simp)
    · refine ⟨by injection h with h'; exact h'.symm, ?_, ?_⟩
      · rename_i h1 _
        cases hc : List.any s.projects fun r => r.id == pid
        · rfl
        · exact absurd hc h1
      · rename_i h2
        cases hc : List.any s.projects fun r => nocaseEq r.name name
        · rfl
        · exact absurd hc h2

lemma insertTagRow_ok {s : DBState} {pid t : String} {s' : DBState}
    (h : insertTagRow s pid t = .ok s') :
    s' = { s with project_tags := s.project_tags ++ [⟨pid, t⟩] } := by
  unfold insertTagRow at h
  split at h
  · exact absurd h (by simp)
  · split at h
    · exact absurd h (by simp)
    · injection h with h'; exact h'.symm

lemma insertTagRows_ok {pid : String} {ts : List String} {s s' : DBState}
    (h : insertTagRows pid ts s = .ok s') :
    s'.projects = s.projects ∧
    s'.project_repositories = s.project_repositories ∧
    s'.app_metadata = s.app_metadata ∧
    s'.project_tags = s.project_tags ++
      ts.map (fun t => (⟨pid, t⟩ : TagRow)) := by
  induction ts generalizing s with
  | nil =>
      unfold insertTagRows at h
      injection h with h'
      subst h'
      simp
  | cons t rest ih =>
      unfold insertTagRows at h
      cases h1 : insertTagRow s pid t with
      | error e => rw [h1] at h; exact absurd h (by simp)
      | ok s1 =>
          rw [h1] at h
          have hs1 := insertTagRow_ok h1
          subst hs1
          obtain ⟨hp, hr, hm, ht⟩ := ih h
          refine ⟨hp, hr, hm, ?_⟩
          simp only [ht, List.map_cons, List.append_assoc, List.cons_append,
            List.nil_append]

lemma insertRepoRow_ok {s : DBState} {rid pid : String}
    {repo : RepositoryInput} {now : Nat} {s' : DBState}
    (h : insertRepoRow s rid pid repo now = .ok s') :
    s' = { s with project_repositories := s.project_repositories ++
      [⟨rid, pid, jsStrOrNone repo.name, repo.url,
        jsStrOrNone repo.defaultBranch, jsStrOrNone repo.provider, now⟩] } := by
  unfold insertRepoRow at h
  split at h
  · exact absurd h (by simp)
  · split at h
    · exact absurd h (by simp)
    · injection h with h'; exact h'.symm

lemma insertRepoRows_ok {pid : String} {gen : Nat → String} {now : Nat}
    {rs : List RepositoryInput} {i : Nat} {s s' : DBState}
    (h : insertRepoRows pid gen now rs i s = .ok s') :
    s'.projects = s.projects ∧
    s'.project_tags = s.project_tags ∧
    s'.app_metadata = s.app_metadata ∧
    s'.project_repositories = s.project_repositories ++
      repoRowsFor pid gen now rs i := by
  induction rs generalizing s i with
  | nil =>
      unfold insertRepoRows at h
      injection h with h'
      subst h'
      simp [repoRowsFor]
  | cons repo rest ih =>
      unfold insertRepoRows at h
      cases h1 : insertRepoRow s (gen i) pid repo now with
      | error e => rw [h1] at h; exact absurd h (by simp)
      | ok s1 =>
          rw [h1] at h
          have hs1 := insertRepoRow_ok h1
          subst hs1
          obtain ⟨hp, ht, hm, hr⟩ := ih h
          refine ⟨hp, ht, hm, ?_⟩
          simp only [hr, repoRowsFor, List.append_assoc, List.cons_append,
            List.nil_append]

lemma find?_map_replace (l : List (String × String)) (k v : String) :
    ((l.map (fun kv => if kv.1 == k then (kv.1, v) else kv)).find?
        (fun kv => kv.1 == k)) =
      (l.find? (fun kv => kv.1 == k)).map (fun kv => (kv.1, v)) := by
  induction l with
  | nil => simp
  | cons a t ih =>
      by_cases ha : a.1 = k
      · simp [List.find?, ha, List.find?_cons]
      · have ha' : (a.1 == k) = false := by simp [ha]
        simp only [List.map_cons, ha', if_neg, Bool.false_eq_true,
          not_false_eq_true, List.find?_cons_of_neg, ite_false]
        exact ih

lemma getActive_congr {s s' : DBState}
    (h : s'.app_metadata = s.app_metadata) :
    ProjectRepository.getActiveProjectId s' =
      ProjectRepository.getActiveProjectId s := by
  unfold ProjectRepository.getActiveProjectId metaLookup
  rw [h]

lemma metaLookup_setActive (s : DBState) (id : Option String) :
    metaLookup (ProjectRepository.setActiveProjectId s id)
        "active_project_id" =
      (metaLookup s "active_project_id").map (fun _ => activeSentinel id) := by
  unfold metaLookup ProjectRepository.setActiveProjectId
  simp only [find?_map_replace, Option.map_map]
  rfl

lemma getActive_setActive (s : DBState) (id : Option String) :
    ProjectRepository.getActiveProjectId
        (ProjectRepository.setActiveProjectId s id) =
      match metaLookup s "active_project_id" with
      | none => none
      | some _ =>
          if activeSentinel id == "null" then none
          else some (activeSentinel id) := by
  unfold ProjectRepository.getActiveProjectId
  rw [metaLookup_setActive]
  cases metaLookup s "active_project_id" <;> simp

lemma getActive_setActive_none (s : DBState) :
    ProjectRepository.getActiveProjectId
        (ProjectRepository.setActiveProjectId s none) = none := by
  rw [getActive_setActive]
  cases metaLookup s "active_project_id" <;> simp [activeSentinel]

lemma delete_repo_fst (s : DBState) (id : String) :
    ((ProjectRepository.delete s id).1).app_metadata = s.app_metadata ∧
    ((ProjectRepository.delete s id).1.projects = s.projects ∨
      (ProjectRepository.delete s id).1.projects =
        s.projects.filter (fun r => !(r.id == id))) := by
  unfold ProjectRepository.delete
  split
  · exact ⟨rfl, Or.inr rfl⟩
  · exact ⟨rfl, Or.inl rfl⟩

lemma updateProjectNameRow_ok {s : DBState} {id n : String} {now : Nat}
    {s' : DBState} (h : updateProjectNameRow s id n now = .ok s') :
    s'.project_tags = s.project_tags ∧
    s'.project_repositories = s.project_repositories ∧
    s'.app_metadata = s.app_metadata ∧
    (s'.projects = s.projects ∨
      s'.projects = s.projects.map (renameRow id n now)) := by
  unfold updateProjectNameRow at h
  split at h
  · split at h
    · exact absurd h (by simp)
    · injection h with h'
      subst h'
      exact ⟨rfl, rfl, rfl, Or.inr rfl⟩
  · injection h with h'
    subst h'
    exact ⟨rfl, rfl, rfl, Or.inl rfl⟩

/-- All projects keep their ids across a state transition. -/
def idsPreserved (s s' : DBState) : Prop :=
  ∀ r ∈ s.projects, ∃ r' ∈ s'.projects, r'.id = r.id

lemma idsPreserved_refl (s : DBState) : idsPreserved s s :=
  fun r hr => ⟨r, hr, rfl⟩

lemma idsPreserved_of_eq {s s' : DBState} (h : s'.projects = s.projects) :
    idsPreserved s s' :=
  fun r hr => ⟨r, by rw [h]; exact hr, rfl⟩

lemma idsPreserved_map (s : DBState) (f : ProjectRow → ProjectRow)
    (hf : ∀ r, (f r).id = r.id) {s' : DBState}
    (h : s'.projects = s.projects.map f) : idsPreserved s s' :=
  fun r hr => ⟨f r, by rw [h]; exact List.mem_map_of_mem f hr, hf r⟩

lemma idsPreserved_append (s : DBState) (l : List ProjectRow) {s' : DBState}
    (h : s'.projects = s.projects ++ l) : idsPreserved s s' :=
  fun r hr => ⟨r, by rw [h]; exact List.mem_append_left l hr, rfl⟩

lemma update_repo_fst (s : DBState) (id : String) (gen : Nat → String)
    (now : Nat) (d : ProjectFormDataPatch) :
    ((ProjectRepository.update s id gen now d).1).app_metadata =
      s.app_metadata ∧
    idsPreserved s (ProjectRepository.update s id gen now d).1 := by
  unfold ProjectRepository.update
  cases hd : d.name with
  | some n =>
      cases h1 : updateProjectNameRow s id n now with
      | error e => simp [hd, h1, idsPreserved_refl]
      | ok s1 =>
          obtain ⟨ht1, hr1, hm1, hp1⟩ := updateProjectNameRow_ok h1
          have hids1 : idsPreserved s s1 := by
            rcases hp1 with h | h
            · exact idsPreserved_of_eq h
            · exact idsPreserved_map s _
                (fun r => by unfold renameRow; split <;> rfl) h
          cases hd2 : d.tags with
          | some ts =>
              cases h2 : insertTagRows id ts (deleteTagsOf s1 id) with
              | error e => simp [hd, h1, hd2, h2, idsPreserved_refl]
              | ok s2 =>
                  obtain ⟨hp2, hr2, hm2, ht2⟩ := insertTagRows_ok h2
                  have hids2 : idsPreserved s s2 := by
                    intro r hr
                    obtain ⟨r', hr', hid⟩ := hids1 r hr
                    exact ⟨r', by rw [hp2]; exact hr', hid⟩
                  cases hd3 : d.repositories with
                  | some rs =>
                      cases h3 : insertRepoRows id gen now rs 0
                          (deleteReposOf s2 id) with
                      | error e =>
                          simp [hd, h1, hd2, h2, hd3, h3, idsPreserved_refl]
                      | ok s3 =>
                          obtain ⟨hp3, ht3, hm3, hr3⟩ := insertRepoRows_ok h3
                          have hids3 : idsPreserved s s3 := by
                            intro r hr
                            obtain ⟨r', hr', hid⟩ := hids2 r hr
                            exact ⟨r', by rw [hp3]; exact hr', hid⟩
                          have hm : s3.app_metadata = s.app_metadata := by
                            rw [hm3]; exact hm2.trans hm1
                          simp only [hd, h1, hd2, h2, hd3, h3]
                          cases hfind : findProjectRow s3 id <;>
                            exact ⟨hm, hids3⟩
                  | none =>
                      have hm : s2.app_metadata = s.app_metadata :=
                        hm2.trans hm1
                      simp only [hd, h1, hd2, h2, hd3]
                      cases hfind : findProjectRow s2 id <;>
                        exact ⟨hm, hids2⟩
          | none =>
              cases hd3 : d.repositories with
              | some rs =>
                  cases h3 : insertRepoRows id gen now rs 0
                      (deleteReposOf s1 id) with
                  | error e => simp [hd, h1, hd2, hd3, h3, idsPreserved_refl]
                  | ok s3 =>
                      obtain ⟨hp3, ht3, hm3, hr3⟩ := insertRepoRows_ok h3
                      have hids3 : idsPreserved s s3 := by
                        intro r hr
                        obtain ⟨r', hr', hid⟩ := hids1 r hr
                        exact ⟨r', by rw [hp3]; exact hr', hid⟩
                      have hm : s3.app_metadata = s.app_metadata := by
                        rw [hm3]; exact hm1
                      simp only [hd, h1, hd2, hd3, h3]
                      cases hfind : findProjectRow s3 id <;>
                        exact ⟨hm, hids3⟩
              | none =>
                  simp only [hd, h1, hd2, hd3]
                  cases hfind : findProjectRow s1 id <;>
                    exact ⟨hm1, hids1⟩
  | none =>
      cases hd2 : d.tags with
      | some ts =>
          cases h2 : insertTagRows id ts
              (deleteTagsOf (touchProjectRow s id now) id) with
          | error e => simp [hd, hd2, h2, idsPreserved_refl]
          | ok s2 =>
              obtain ⟨hp2, hr2, hm2, ht2⟩ := insertTagRows_ok h2
              have hids2 : idsPreserved s s2 := by
                intro r hr
                refine ⟨touchRow id now r, ?_, ?_⟩
                · rw [hp2]
                  exact List.mem_map_of_mem _ hr
                · unfold touchRow
                  split <;> rfl
              cases hd3 : d.repositories with
              | some rs =>
                  cases h3 : insertRepoRows id gen now rs 0
                      (deleteReposOf s2 id) with
                  | error e => simp [hd, hd2, h2, hd3, h3, idsPreserved_refl]
                  | ok s3 =>
                      obtain ⟨hp3, ht3, hm3, hr3⟩ := insertRepoRows_ok h3
                      have hids3 : idsPreserved s s3 := by
                        intro r hr
                        obtain ⟨r', hr', hid⟩ := hids2 r hr
                        exact ⟨r', by rw [hp3]; exact hr', hid⟩
                      have hm : s3.app_metadata = s.app_metadata := by
                        rw [hm3]; exact hm2
                      simp only [hd, hd2, h2, hd3, h3]
                      cases hfind : findProjectRow s3 id <;>
                        exact ⟨hm, hids3⟩
              | none =>
                  simp only [hd, hd2, h2, hd3]
                  cases hfind : findProjectRow s2 id <;>
                    exact ⟨hm2, hids2⟩
      | none =>
          cases hd3 : d.repositories with
          | some rs =>
              cases h3 : insertRepoRows id gen now rs 0
                  (deleteReposOf (touchProjectRow s id now) id) with
              | error e => simp [hd, hd2, hd3, h3, idsPreserved_refl]
              | ok s3 =>
                  obtain ⟨hp3, ht3, hm3, hr3⟩ := insertRepoRows_ok h3
                  have hids3 : idsPreserved s s3 := by
                    intro r hr
                    refine ⟨touchRow id now r, ?_, ?_⟩
                    · rw [hp3]
                      exact List.mem_map_of_mem _ hr
                    · unfold touchRow
                      split <;> rfl
                  simp only [hd, hd2, hd3, h3]
                  cases hfind : findProjectRow s3 id <;>
                    exact ⟨hm3, hids3⟩
          | none =>
              simp only [hd, hd2, hd3]
              cases hfind : findProjectRow (touchProjectRow s id now) id <;>
                refine ⟨rfl, ?_⟩ <;>
                exact idsPreserved_map s _
                  (fun r => by unfold touchRow; split <;> rfl) rfl


lemma create_cases (s : DBState) (pid : String) (gen : Nat → String)
    (now : Nat) (d : ProjectFormData) :
    (∃ e, ProjectRepository.create s pid gen now d = (s, .error e)) ∨
    (∃ p, (ProjectRepository.create s pid gen now d).2 = .ok p ∧
      (ProjectRepository.create s pid gen now d).1.projects =
        s.projects ++ [⟨pid, d.name, now, now⟩] ∧
      (ProjectRepository.create s pid gen now d).1.project_tags =
        s.project_tags ++ d.tags.map (fun t => (⟨pid, t⟩ : TagRow)) ∧
      (ProjectRepository.create s pid gen now d).1.project_repositories =
        s.project_repositories ++ repoRowsFor pid gen now d.repositories 0 ∧
      (ProjectRepository.create s pid gen now d).1.app_metadata =
        s.app_metadata) := by
  unfold ProjectRepository.create
  cases h1 : insertProjectRow s pid d.name now with
  | error e =>
      exact Or.inl ⟨.storage ("Failed to create project: " ++ e),
        by simp [h1]⟩
  | ok s1 =>
      cases h2 : insertTagRows pid d.tags s1 with
      | error e =>
          exact Or.inl ⟨.storage ("Failed to create project: " ++ e),
            by simp [h1, h2]⟩
      | ok s2 =>
          cases h3 : insertRepoRows pid gen now d.repositories 0 s2 with
          | error e =>
              exact Or.inl ⟨.storage ("Failed to create project: " ++ e),
                by simp [h1, h2, h3]⟩
          | ok s3 =>
              obtain ⟨hs1, hfresh, _⟩ := insertProjectRow_ok h1
              subst hs1
              obtain ⟨hp2, hr2, hm2, ht2⟩ := insertTagRows_ok h2
              obtain ⟨hp3, ht3, hm3, hr3⟩ := insertRepoRows_ok h3
              have hproj : s3.projects =
                  s.projects ++ [⟨pid, d.name, now, now⟩] := by
                rw [hp3, hp2]
              have hfound : findProjectRow s3 pid =
                  some ⟨pid, d.name, now, now⟩ := by
                unfold findProjectRow
                rw [hproj]
                exact find?_append_right _ _ _ hfresh (by simp)
              have hfind : ProjectRepository.findById s3 pid =
                  some (hydrateProject s3 ⟨pid, d.name, now, now⟩) := by
                unfold ProjectRepository.findById
                rw [hfound]
                rfl
              refine Or.inr ⟨hydrateProject s3 ⟨pid, d.name, now, now⟩,
                ?_, ?_, ?_, ?_, ?_⟩
              · simp only [h1, h2, h3, hfind]
              · simp only [h1, h2, h3, hfind]
                exact hproj
              · simp only [h1, h2, h3, hfind]
                rw [ht3, ht2]
              · simp only [h1, h2, h3, hfind]
                rw [hr3, hr2]
              · simp only [h1, h2, h3, hfind]
                rw [hm3, hm2]

lemma createProject_fst (s : DBState) (pid : String) (gen : Nat → String)
    (now : Nat) (fd : ProjectFormData) :
    ((ProjectManager.createProject s pid gen now fd).1).app_metadata =
      s.app_metadata ∧
    idsPreserved s (ProjectManager.createProject s pid gen now fd).1 := by
  unfold ProjectManager.createProject
  by_cases hv : (validateProjectData fd.toPatch).isEmpty
  · simp only [hv, if_true]
    cases hf : ProjectRepository.findByName s fd.name with
    | some p => exact ⟨rfl, idsPreserved_refl s⟩
    | none =>
        rcases create_cases s pid gen now fd with ⟨e, he⟩ | ⟨p, _, hp, _, _, hm⟩
        · rw [he]
          exact ⟨rfl, idsPreserved_refl s⟩
        · exact ⟨hm, idsPreserved_append s _ hp⟩
  · simp only [hv, if_false, Bool.false_eq_true]
    exact ⟨trivial, idsPreserved_refl s⟩

lemma updateProject_fst (s : DBState) (id : String) (gen : Nat → String)
    (now : Nat) (fd : ProjectFormDataPatch) :
    ((ProjectManager.updateProject s id gen now fd).1).app_metadata =
      s.app_metadata ∧
    idsPreserved s (ProjectManager.updateProject s id gen now fd).1 := by
  unfold ProjectManager.updateProject
  by_cases hv : (validateProjectData fd).isEmpty
  · simp only [hv, if_true]
    cases hf : ProjectRepository.findById s id with
    | none => exact ⟨rfl, idsPreserved_refl s⟩
    | some existing =>
        dsimp only
        cases hdup : dupNameCheck s id existing.name fd.name with
        | some e => exact ⟨rfl, idsPreserved_refl s⟩
        | none => exact update_repo_fst s id gen now fd
  · simp only [hv, if_false, Bool.false_eq_true]
    exact ⟨trivial, idsPreserved_refl s⟩

lemma activeOk_transfer {s s' : DBState}
    (hmeta : s'.app_metadata = s.app_metadata)
    (hids : idsPreserved s s') : activeOk s → activeOk s' := by
  intro h
  unfold activeOk at h ⊢
  rw [getActive_congr hmeta]
  rcases h with h | ⟨r, hr, heq⟩
  · exact Or.inl h
  · obtain ⟨r', hr', hid⟩ := hids r hr
    exact Or.inr ⟨r', hr', by rw [heq, hid]⟩

lemma setActive_repo_projects (s : DBState) (id : Option String) :
    (ProjectRepository.setActiveProjectId s id).projects = s.projects := rfl

lemma mstep_preserves_activeOk (s : DBState) (op : MOp) :
    activeOk s → activeOk (mstep s op) := by
  intro h
  cases op with
  | create pid gen now fd =>
      obtain ⟨hm, hids⟩ := createProject_fst s pid gen now fd
      exact activeOk_transfer hm hids h
  | update id gen now fd =>
      obtain ⟨hm, hids⟩ := updateProject_fst s id gen now fd
      exact activeOk_transfer hm hids h
  | setActive id =>
      cases id with
      | none =>
          simp only [mstep, ProjectManager.setActiveProjectId]
          exact Or.inl (getActive_setActive_none s)
      | some x =>
          simp only [mstep, ProjectManager.setActiveProjectId]
          cases hf : ProjectRepository.findById s x with
          | none => exact h
          | some p =>
              unfold ProjectRepository.findById at hf
              cases hrow : findProjectRow s x with
              | none => rw [hrow] at hf; exact absurd hf (by simp)
              | some row =>
                  have hmem : row ∈ s.projects :=
                    List.mem_of_find?_eq_some hrow
                  have hrowid : row.id = x := by
                    have := List.find?_some hrow
                    exact eq_of_beq this
                  unfold activeOk
                  rw [getActive_setActive]
                  cases hml : metaLookup s "active_project_id" with
                  | none => exact Or.inl rfl
                  | some v =>
                      dsimp only
                      by_cases hnull : (activeSentinel (some x) == "null") = true
                      · rw [if_pos hnull]
                        exact Or.inl rfl
                      · rw [if_neg hnull]
                        have hxval : activeSentinel (some x) = x := by
                          by_cases hx : (x == "") = true
                          · have hsent : activeSentinel (some x) = "null" := by
                              simp [activeSentinel, hx]
                            rw [hsent] at hnull
                            simp at hnull
                          · simp [activeSentinel, hx]
                        refine Or.inr ⟨row, ?_, ?_⟩
                        · exact hmem
                        · rw [hxval, hrowid]
  | delete id =>
      simp only [mstep, ProjectManager.deleteProject]
      cases hf : ProjectRepository.findById s id with
      | none => exact h
      | some p =>
          by_cases hact : ProjectRepository.getActiveProjectId s = some id
          · simp only [hact, if_true]
            obtain ⟨hm, _⟩ :=
              delete_repo_fst (ProjectRepository.setActiveProjectId s none) id
            refine Or.inl ?_
            rw [getActive_congr hm]
            exact getActive_setActive_none s
          · simp only [hact, if_false, ite_false]
            obtain ⟨hm, hpr⟩ := delete_repo_fst s id
            rcases h with hnone | ⟨r, hr, heq⟩
            · exact Or.inl ((getActive_congr hm).trans hnone)
            · have hrid : r.id ≠ id := by
                intro hc
                exact hact (by rw [heq, hc])
              refine Or.inr ⟨r, ?_, ?_⟩
              · rcases hpr with hsame | hfilt
                · rw [hsame]; exact hr
                · rw [hfilt]
                  refine List.mem_filter.mpr ⟨hr, ?_⟩
                  simp [hrid]
              · rw [getActive_congr hm, heq]

lemma mrun_preserves_activeOk (ops : List MOp) :
    ∀ s : DBState, activeOk s → activeOk (mrun s ops) := by
  induction ops with
  | nil => intro s h; exact h
  | cons op rest ih =>
      intro s h
      exact ih (mstep s op) (mstep_preserves_activeOk s op h)

lemma pidTags_mem (s : DBState) (pid t : String) :
    s.project_tags.any (fun tr => tr.project_id == pid && tr.tag == t) =
      true ↔ t ∈ pidTags s pid := by
  simp only [pidTags, List.any_eq_true, Bool.and_eq_true, beq_iff_eq,
    List.mem_map, List.mem_filter]
  constructor
  · rintro ⟨tr, htr, hp, ht⟩
    exact ⟨tr, ⟨htr, by simp [hp]⟩, ht⟩
  · rintro ⟨tr, ⟨htr, hp⟩, ht⟩
    exact ⟨tr, htr, by simpa using hp, ht⟩

lemma pidTags_append_one (s : DBState) (pid t : String) :
    pidTags { s with project_tags := s.project_tags ++ [⟨pid, t⟩] } pid =
      pidTags s pid ++ [t] := by
  simp [pidTags, List.filter_append]

lemma insertTagRow_succeeds (s : DBState) (pid t : String)
    (hfk : s.projects.any (fun r => r.id == pid) = true)
    (hnew : t ∉ pidTags s pid) :
    insertTagRow s pid t =
      .ok { s with project_tags := s.project_tags ++ [⟨pid, t⟩] } := by
  have hpk : s.project_tags.any
      (fun tr => tr.project_id == pid && tr.tag == t) = false := by
    cases hc : s.project_tags.any
        (fun tr => tr.project_id == pid && tr.tag == t)
    · rfl
    · exact absurd ((pidTags_mem s pid t).mp hc) hnew
  unfold insertTagRow
  rw [if_neg (by simp [hpk]), if_neg (by simp [hfk])]

lemma insertTagRows_succeeds (pid : String) (ts : List String) (s : DBState)
    (hfk : s.projects.any (fun r => r.id == pid) = true)
    (hnodup : (pidTags s pid ++ ts).Nodup) :
    insertTagRows pid ts s =
      .ok { s with project_tags :=
        s.project_tags ++ ts.map (fun t => (⟨pid, t⟩ : TagRow)) } := by
  induction ts generalizing s with
  | nil => simp [insertTagRows]
  | cons t rest ih =>
      have hnew : t ∉ pidTags s pid := by
        intro hmem
        have hd : List.Disjoint (pidTags s pid) (t :: rest) :=
          (List.nodup_append.mp hnodup).2.2
        exact hd hmem (List.mem_cons_self t rest)
      unfold insertTagRows
      rw [insertTagRow_succeeds s pid t hfk hnew]
      dsimp only
      have hfk1 : ({ s with project_tags := s.project_tags ++ [⟨pid, t⟩]
          } : DBState).projects.any (fun r => r.id == pid) = true := hfk
      have hnodup1 : (pidTags { s with project_tags :=
          s.project_tags ++ [⟨pid, t⟩] } pid ++ rest).Nodup := by
        rw [pidTags_append_one]
        have : pidTags s pid ++ [t] ++ rest =
            pidTags s pid ++ t :: rest := by
          rw [List.append_assoc]
          rfl
        rw [this]
        exact hnodup
      rw [ih _ hfk1 hnodup1]
      simp [List.append_assoc]

lemma insertTagRows_dup_fails (pid : String) (ts : List String) (s : DBState)
    (hfk : s.projects.any (fun r => r.id == pid) = true)
    (hnd : (pidTags s pid).Nodup)
    (hdup : ¬ (pidTags s pid ++ ts).Nodup) :
    insertTagRows pid ts s = .error
      "UNIQUE constraint failed: project_tags.project_id, project_tags.tag" := by
  induction ts generalizing s with
  | nil =>
      exact absurd (by simpa using hnd) hdup
  | cons t rest ih =>
      by_cases hmem : t ∈ pidTags s pid
      · have hpk : s.project_tags.any
            (fun tr => tr.project_id == pid && tr.tag == t) = true :=
          (pidTags_mem s pid t).mpr hmem
        unfold insertTagRows insertTagRow
        rw [if_pos (by simp [hpk])]
      · unfold insertTagRows
        rw [insertTagRow_succeeds s pid t hfk hmem]
        dsimp only
        have hnd1 : (pidTags { s with project_tags :=
            s.project_tags ++ [⟨pid, t⟩] } pid).Nodup := by
          rw [pidTags_append_one]
          simp [List.nodup_append, hnd, hmem]
        have hdup1 : ¬ (pidTags { s with project_tags :=
            s.project_tags ++ [⟨pid, t⟩] } pid ++ rest).Nodup := by
          rw [pidTags_append_one]
          have : pidTags s pid ++ [t] ++ rest =
              pidTags s pid ++ t :: rest := by
            rw [List.append_assoc]
            rfl
          rw [this]
          exact hdup
        exact ih _ hfk hnd1 hdup1

lemma find?_id_map (l : List ProjectRow) (id : String)
    (f : ProjectRow → ProjectRow) (hf : ∀ r, (f r).id = r.id) :
    (l.map f).find? (fun r => r.id == id) =
      (l.find? (fun r => r.id == id)).map f := by
  induction l with
  | nil => simp
  | cons x t ih =>
      cases hx : (x.id == id) with
      | true =>
          have hfx : ((f x).id == id) = true := by rw [hf x]; exact hx
          rw [List.map_cons, List.find?_cons_of_pos _ (by simp [hfx]),
            List.find?_cons_of_pos _ (by simp [hx])]
          rfl
      | false =>
          have hfx : ((f x).id == id) = false := by rw [hf x]; exact hx
          rw [List.map_cons, List.find?_cons_of_neg _ (by simp [hfx]),
            List.find?_cons_of_neg _ (by simp [hx])]
          exact ih

/-- Claim C1: for every sequence of Manager operations (createProject,
updateProject, deleteProject, setActiveProjectId) starting from the seeded
metadata state, the active-project pointer is always either absent or the
id of a project that currently exists; no reachable state has the pointer
referencing a deleted project. -/
theorem c1_active_pointer_never_dangling (ops : List MOp) :
    activeOk (mrun seededState ops) :=
  mrun_preserves_activeOk ops seededState (Or.inl (by decide))

/-- Claim C2: for an existing project id, deleteProject clears the active
pointer if and only if that id equalled the pointer at the time of the
call; deleting a non-active project leaves the pointer unchanged. -/
theorem c2_delete_clears_pointer_iff_active (s : DBState) (id : String)
    (h : (ProjectRepository.findById s id).isSome = true) :
    ProjectRepository.getActiveProjectId
        (ProjectManager.deleteProject s id).1 =
      (if ProjectRepository.getActiveProjectId s = some id then none
       else ProjectRepository.getActiveProjectId s) := by
  unfold ProjectManager.deleteProject
  cases hf : ProjectRepository.findById s id with
  | none => rw [hf] at h; simp at h
  | some p =>
      dsimp only
      by_cases hact : ProjectRepository.getActiveProjectId s = some id
      · rw [if_pos hact, if_pos hact]
        obtain ⟨hm, _⟩ :=
          delete_repo_fst (ProjectRepository.setActiveProjectId s none) id
        rw [getActive_congr hm]
        exact getActive_setActive_none s
      · rw [if_neg hact, if_neg hact]
        obtain ⟨hm, _⟩ := delete_repo_fst s id
        exact getActive_congr hm

def c2State : DBState :=
  { projects := [⟨"p1", "A", 0, 0⟩, ⟨"p2", "B", 1, 1⟩]
    project_tags := []
    project_repositories := []
    app_metadata := [("schema_version", "1"), ("active_project_id", "p1")] }

/-- Witness for C2: deleting the active project p1 clears the pointer, and
deleting the non-active p2 leaves it at p1. -/
theorem c2_delete_clears_pointer_iff_active_witness :
    ProjectRepository.getActiveProjectId
        (ProjectManager.deleteProject c2State "p1").1 = none ∧
    ProjectRepository.getActiveProjectId
        (ProjectManager.deleteProject c2State "p2").1 = some "p1" := by
  constructor
  · rw [c2_delete_clears_pointer_iff_active c2State "p1" (by decide)]
    decide
  · rw [c2_delete_clears_pointer_iff_active c2State "p2" (by decide)]
    decide

/-- Claim C5: the create transaction is all-or-nothing: either it fails and
the visible state is exactly the pre-call state (no partial row set), or it
succeeds and the project row, all tag rows and all repository rows are
visible together. -/
theorem c5_create_all_or_nothing (s : DBState) (pid : String)
    (gen : Nat → String) (now : Nat) (d : ProjectFormData) :
    (∃ e, ProjectRepository.create s pid gen now d = (s, .error e)) ∨
    (∃ p, (ProjectRepository.create s pid gen now d).2 = .ok p ∧
      (ProjectRepository.create s pid gen now d).1.projects =
        s.projects ++ [⟨pid, d.name, now, now⟩] ∧
      (ProjectRepository.create s pid gen now d).1.project_tags =
        s.project_tags ++ d.tags.map (fun t => (⟨pid, t⟩ : TagRow)) ∧
      (ProjectRepository.create s pid gen now d).1.project_repositories =
        s.project_repositories ++ repoRowsFor pid gen now d.repositories 0 ∧
      (ProjectRepository.create s pid gen now d).1.app_metadata =
        s.app_metadata) :=
  create_cases s pid gen now d

/-- The environment of the C6 failing input: the connection opens but
schema.sql is missing, so executing the schema fails. -/
def c6FailEnv : DbEnv := ⟨true, false, true⟩

/-- Claim C6 (code bug): when initialization fails because the schema
cannot be executed, initialize does throw a wrapped error as the claim
says, but the manager keeps the already-assigned connection handle: a
subsequent getDatabase() returns a handle on which the schema was never
applied instead of failing with the not-initialized condition. -/
theorem c6_half_initialized_handle_retained :
    (DatabaseManager.initDb none c6FailEnv).2 =
      .error (.initFailed
        "Database initialization failed: Schema file not found") ∧
    (DatabaseManager.initDb none c6FailEnv).1 =
      some ⟨true, true, false⟩ ∧
    DatabaseManager.getDatabase
        (DatabaseManager.initDb none c6FailEnv).1 =
      .ok ⟨true, true, false⟩ := by
  decide

/-- Claim C8: after a successful initialize, a second initialize call (in
any environment) is a no-op: it does not throw and leaves the handle and
state unchanged. -/
theorem c8_initialize_idempotent (st : Option DBHandle) (env env2 : DbEnv)
    (h : (DatabaseManager.initDb st env).2 = .ok ()) :
    DatabaseManager.initDb (DatabaseManager.initDb st env).1 env2 =
      ((DatabaseManager.initDb st env).1, .ok ()) := by
  cases st with
  | some hdl => rfl
  | none =>
      cases ho : env.openOk with
      | false => simp [DatabaseManager.initDb, ho] at h
      | true =>
          cases hs : DatabaseManager.runSchema env with
          | error e => simp [DatabaseManager.initDb, ho, hs] at h
          | ok u => simp [DatabaseManager.initDb, ho, hs]

/-- Witness for C8: a successful first initialize followed by a second call
in a hostile environment still no-ops. -/
theorem c8_initialize_idempotent_witness :
    DatabaseManager.initDb
        (DatabaseManager.initDb none ⟨true, true, true⟩).1
        ⟨false, false, false⟩ =
      ((DatabaseManager.initDb none ⟨true, true, true⟩).1, .ok ()) :=
  c8_initialize_idempotent none ⟨true, true, true⟩ ⟨false, false, false⟩
    (by decide)

/-- Claim C10: the absent active-project value is stored as the literal
string "null" and falsy ids map to it: at the repository level set-then-get
returns x for every non-empty x other than "null", while null, the empty
string and the string "null" all read back as null. -/
theorem c10_active_sentinel_conflation (s : DBState)
    (h : (metaLookup s "active_project_id").isSome = true) :
    (∀ x : String, x ≠ "" → x ≠ "null" →
      ProjectRepository.getActiveProjectId
        (ProjectRepository.setActiveProjectId s (some x)) = some x) ∧
    ProjectRepository.getActiveProjectId
      (ProjectRepository.setActiveProjectId s none) = none ∧
    ProjectRepository.getActiveProjectId
      (ProjectRepository.setActiveProjectId s (some "")) = none ∧
    ProjectRepository.getActiveProjectId
      (ProjectRepository.setActiveProjectId s (some "null")) = none := by
  obtain ⟨v, hv⟩ := Option.isSome_iff_exists.mp h
  refine ⟨?_, ?_, ?_, ?_⟩
  · intro x hx hxn
    rw [getActive_setActive, hv]
    dsimp only
    have hsent : activeSentinel (some x) = x := by
      simp [activeSentinel, hx]
    rw [hsent, if_neg (by simp [hxn])]
  · exact getActive_setActive_none s
  · rw [getActive_setActive, hv]
    dsimp only
    rw [if_pos (by simp [activeSentinel])]
  · rw [getActive_setActive, hv]
    dsimp only
    rw [if_pos (by simp [activeSentinel])]

/-- Witness for C10, on the seeded metadata state. -/
theorem c10_active_sentinel_conflation_witness :
    ProjectRepository.getActiveProjectId
      (ProjectRepository.setActiveProjectId seededState (some "x")) =
        some "x" ∧
    ProjectRepository.getActiveProjectId
      (ProjectRepository.setActiveProjectId seededState none) = none ∧
    ProjectRepository.getActiveProjectId
      (ProjectRepository.setActiveProjectId seededState (some "")) = none ∧
    ProjectRepository.getActiveProjectId
      (ProjectRepository.setActiveProjectId seededState (some "null")) =
        none := by
  have h := c10_active_sentinel_conflation seededState (by decide)
  exact ⟨h.1 "x" (by decide) (by decide), h.2.1, h.2.2.1, h.2.2.2⟩

lemma touchRow_id (id : String) (now : Nat) (r : ProjectRow) :
    (touchRow id now r).id = r.id := by
  unfold touchRow
  split <;> rfl

lemma touch_fk (s : DBState) (id : String) (now : Nat) (r : ProjectRow)
    (hrow : findProjectRow s id = some r) :
    (touchProjectRow s id now).projects.any
      (fun rr => rr.id == id) = true := by
  have hrow' : s.projects.find? (fun rr => rr.id == id) = some r := hrow
  have hrmem : r ∈ s.projects := List.mem_of_find?_eq_some hrow'
  have hrid : (r.id == id) = true := by
    have hp := List.find?_some hrow'
    simpa using hp
  refine List.any_eq_true.mpr ⟨touchRow id now r, ?_, ?_⟩
  · exact List.mem_map_of_mem _ hrmem
  · rw [touchRow_id id now r]
    exact hrid

lemma update_tags_pair (s : DBState) (id : String) (gen : Nat → String)
    (now : Nat) (a b : String) (r : ProjectRow)
    (hrow : findProjectRow s id = some r) (hab : (a == b) = false) :
    ∃ s' p,
      ProjectRepository.update s id gen now ⟨none, some [a, b], none⟩ =
        (s', .ok p) ∧ p.tags = [a, b] ∧
      (ProjectRepository.findById s' id).map Project.tags =
        some [a, b] := by
  have hrow' : s.projects.find? (fun rr => rr.id == id) = some r := hrow
  have hrid : (r.id == id) = true := by
    have hp := List.find?_some hrow'
    simpa using hp
  have hrideq : r.id = id := eq_of_beq hrid
  have hfk := touch_fk s id now r hrow
  have hpid0 : pidTags (deleteTagsOf (touchProjectRow s id now) id) id
      = [] := by
    simp [pidTags, deleteTagsOf, filter_filter_not]
  have hne : a ≠ b := by
    intro hcon
    subst hcon
    simp at hab
  have hnodup : (pidTags (deleteTagsOf (touchProjectRow s id now) id) id
      ++ [a, b]).Nodup := by
    rw [hpid0]
    simp [hne]
  have hins := insertTagRows_succeeds id [a, b]
    (deleteTagsOf (touchProjectRow s id now) id) hfk hnodup
  have hfindX : ∀ Y : DBState,
      Y.projects = s.projects.map (touchRow id now) →
      findProjectRow Y id = some (touchRow id now r) := by
    intro Y hY
    unfold findProjectRow
    rw [hY, find?_id_map s.projects id (touchRow id now) (touchRow_id id now),
      hrow']
    rfl
  have htouchid : (touchRow id now r).id = id := by
    rw [touchRow_id id now r]
    exact hrideq
  have htagsX : ∀ Y : DBState,
      Y.project_tags = (touchProjectRow s id now).project_tags.filter
          (fun t => !(t.project_id == id)) ++
        [⟨id, a⟩, ⟨id, b⟩] →
      (hydrateProject Y (touchRow id now r)).tags = [a, b] := by
    intro Y hY
    simp only [hydrateProject, hY, htouchid, List.filter_append,
      filter_filter_not, List.nil_append]
    simp
  unfold ProjectRepository.update
  dsimp only
  rw [hins]
  dsimp only
  rw [hfindX _ rfl]
  exact ⟨_, _, rfl, htagsX _ rfl, by
    unfold ProjectRepository.findById
    rw [hfindX _ rfl]
    dsimp only [Option.map]
    rw [htagsX _ rfl]⟩

/-- Claim C4: for every existing project (whatever its prior tag set),
updateProject with tags ["a","b"] succeeds and both the returned project
and a subsequent findById carry exactly ["a","b"]: the provided list fully
replaces the stored tags rather than being merged. -/
theorem c4_update_tags_full_replacement (s : DBState) (id : String)
    (gen : Nat → String) (now : Nat)
    (h : (ProjectRepository.findById s id).isSome = true) :
    (∃ p, (ProjectManager.updateProject s id gen now
        ⟨none, some ["a", "b"], none⟩).2 = .ok p ∧ p.tags = ["a", "b"]) ∧
    (ProjectRepository.findById
        (ProjectManager.updateProject s id gen now
          ⟨none, some ["a", "b"], none⟩).1 id).map Project.tags =
      some ["a", "b"] := by
  unfold ProjectManager.updateProject
  have hval : (validateProjectData
      (⟨none, some ["a", "b"], none⟩ : ProjectFormDataPatch)).isEmpty =
      true := by decide
  rw [if_pos hval]
  cases hf : ProjectRepository.findById s id with
  | none => rw [hf] at h; simp at h
  | some existing =>
      dsimp only [dupNameCheck]
      have hrowex : ∃ r, findProjectRow s id = some r := by
        unfold ProjectRepository.findById at hf
        cases hq : findProjectRow s id with
        | none => rw [hq] at hf; simp at hf
        | some rr => exact ⟨rr, rfl⟩
      obtain ⟨r, hr⟩ := hrowex
      obtain ⟨s', p, heq, htags, hfind2⟩ :=
        update_tags_pair s id gen now "a" "b" r hr (by decide)
      rw [heq]
      exact ⟨⟨p, rfl, htags⟩, hfind2⟩

/-- The C4 witness state: one project whose prior tag set is ["c"]. -/
def c4State : DBState :=
  { projects := [⟨"p1", "Alpha", 0, 0⟩]
    project_tags := [⟨"p1", "c"⟩]
    project_repositories := []
    app_metadata := [("schema_version", "1"), ("active_project_id", "null")] }

/-- Witness for C4: on a project with prior tags ["c"], the update stores
exactly ["a","b"]. -/
theorem c4_update_tags_full_replacement_witness :
    (ProjectRepository.findById
        (ProjectManager.updateProject c4State "p1" (fun _ => "r") 5
          ⟨none, some ["a", "b"], none⟩).1 "p1").map Project.tags =
      some ["a", "b"] :=
  (c4_update_tags_full_replacement c4State "p1" (fun _ => "r") 5
    (by decide)).2

lemma any_eq_false_of_find?_eq_none {α} (p : α → Bool) (l : List α)
    (h : l.find? p = none) : l.any p = false := by
  cases ha : l.any p
  · rfl
  · obtain ⟨x, hx, hpx⟩ := List.any_eq_true.mp ha
    have hc := List.find?_eq_none.mp h x hx
    simp [hpx] at hc

/-- Claim C9: a create input whose tag list repeats a string passes Manager
validation, but the transaction violates the (project_id, tag) primary key
and rolls back entirely: createProject returns the storage-wrapped
constraint error — not a validation error — and the state is unchanged, so
no project, tag or repository row of this create is visible. -/
theorem c9_duplicate_tag_rolls_back (s : DBState) (pid : String)
    (gen : Nat → String) (now : Nat) (fd : ProjectFormData)
    (hval : validateProjectData fd.toPatch = [])
    (hdup : ¬ fd.tags.Nodup)
    (hname : findProjectRowByName s fd.name = none)
    (hpidfresh : s.projects.any (fun r => r.id == pid) = false)
    (htagfresh : s.project_tags.filter
      (fun t => t.project_id == pid) = []) :
    ProjectManager.createProject s pid gen now fd =
      (s, .error (.storage
        "Failed to create project: UNIQUE constraint failed: project_tags.project_id, project_tags.tag")) := by
  unfold ProjectManager.createProject
  rw [if_pos (by rw [hval]; rfl)]
  have hfbn : ProjectRepository.findByName s fd.name = none := by
    unfold ProjectRepository.findByName
    rw [hname]
    rfl
  rw [hfbn]
  dsimp only
  unfold ProjectRepository.create
  have hname' : s.projects.find? (fun r => nocaseEq r.name fd.name) =
      none := hname
  have hins1 : insertProjectRow s pid fd.name now =
      .ok { s with projects :=
        s.projects ++ [⟨pid, fd.name, now, now⟩] } := by
    unfold insertProjectRow
    rw [if_neg (by simp [hpidfresh]),
      if_neg (by simp [any_eq_false_of_find?_eq_none _ _ hname'])]
  rw [hins1]
  dsimp only
  have hpt : pidTags { s with projects :=
      s.projects ++ [⟨pid, fd.name, now, now⟩] } pid = [] := by
    simp only [pidTags]
    rw [show ({ s with projects := s.projects ++ [⟨pid, fd.name, now, now⟩]
      } : DBState).project_tags = s.project_tags from rfl, htagfresh]
    rfl
  have hfk1 : ({ s with projects :=
      s.projects ++ [⟨pid, fd.name, now, now⟩] } : DBState).projects.any
      (fun r => r.id == pid) = true := by
    simp
  have hfail := insertTagRows_dup_fails pid fd.tags _ hfk1
    (by rw [hpt]; exact List.nodup_nil)
    (by rw [hpt]; simpa using hdup)
  rw [hfail]
  rfl

/-- Witness for C9: creating {name "Foo", tags ["a","a"]} on the seeded
state rolls back with the storage-wrapped primary-key error. -/
theorem c9_duplicate_tag_rolls_back_witness :
    ProjectManager.createProject seededState "p1" (fun _ => "r") 0
        ⟨"Foo", ["a", "a"], []⟩ =
      (seededState, .error (.storage
        "Failed to create project: UNIQUE constraint failed: project_tags.project_id, project_tags.tag")) :=
  c9_duplicate_tag_rolls_back seededState "p1" (fun _ => "r") 0
    ⟨"Foo", ["a", "a"], []⟩ (by decide) (by decide) (by decide) (by decide)
    (by decide)

/-- Claim C3: after a successful createProject with name "Foo", any
subsequent createProject whose otherwise-valid form data carries a name
NOCASE-equal to "Foo" (a pure case variant such as "foo", or "Foo"
itself) fails with the duplicate-name error, and the catalog state is
returned unchanged: no new project is added. -/
theorem c3_duplicate_name_rejected (s : DBState) (pid : String)
    (gen : Nat → String) (now : Nat) (fd : ProjectFormData)
    (hname : fd.name = "Foo") (p : Project)
    (hsucc : (ProjectManager.createProject s pid gen now fd).2 = .ok p)
    (fd2 : ProjectFormData) (pid2 : String) (gen2 : Nat → String)
    (now2 : Nat) (hcase : nocaseEq fd2.name "Foo" = true)
    (hval2 : validateProjectData fd2.toPatch = []) :
    ProjectManager.createProject
        (ProjectManager.createProject s pid gen now fd).1 pid2 gen2 now2
        fd2 =
      ((ProjectManager.createProject s pid gen now fd).1,
        .error (.duplicateName fd2.name)) := by
  unfold ProjectManager.createProject at hsucc ⊢
  by_cases hv : (validateProjectData fd.toPatch).isEmpty
  · rw [if_pos hv] at hsucc ⊢
    cases hf : ProjectRepository.findByName s fd.name with
    | some q =>
        rw [hf] at hsucc
        simp at hsucc
    | none =>
        rw [hf] at hsucc
        dsimp only at hsucc
        dsimp only
        rcases create_cases s pid gen now fd with ⟨e, he⟩ |
          ⟨p', hp2, hproj, _, _, _⟩
        · rw [he] at hsucc; simp at hsucc
        · have hmem : (⟨pid, fd.name, now, now⟩ : ProjectRow) ∈
              (ProjectRepository.create s pid gen now fd).1.projects := by
            rw [hproj]
            exact List.mem_append_right _ (List.mem_singleton_self _)
          rw [if_pos (by rw [hval2]; rfl)]
          have hfind : ∃ d, (ProjectRepository.create s pid gen now
              fd).1.projects.find?
                (fun r => nocaseEq r.name fd2.name) = some d := by
            cases hq : (ProjectRepository.create s pid gen now
                fd).1.projects.find? (fun r => nocaseEq r.name fd2.name) with
            | none =>
                exfalso
                have hnp := List.find?_eq_none.mp hq _ hmem
                apply hnp
                show nocaseEq fd.name fd2.name = true
                rw [hname, nocaseEq_iff]
                exact (nocaseEq_iff.mp hcase).symm
            | some d => exact ⟨d, rfl⟩
          obtain ⟨d, hd⟩ := hfind
          have hfbn : ProjectRepository.findByName
              (ProjectRepository.create s pid gen now fd).1 fd2.name =
              some (hydrateProject
                (ProjectRepository.create s pid gen now fd).1 d) := by
            unfold ProjectRepository.findByName findProjectRowByName
            rw [hd]
            rfl
          rw [hfbn]
  · rw [if_neg hv] at hsucc
    simp at hsucc

/-- Witness for C3: create "Foo" on the seeded state, then the case variant
"foo" is rejected as a duplicate and the state is unchanged. -/
theorem c3_duplicate_name_rejected_witness :
    ProjectManager.createProject
        (ProjectManager.createProject seededState "p1" (fun _ => "r") 0
          ⟨"Foo", [], []⟩).1 "p2" (fun _ => "r") 1 ⟨"foo", [], []⟩ =
      ((ProjectManager.createProject seededState "p1" (fun _ => "r") 0
          ⟨"Foo", [], []⟩).1,
        .error (.duplicateName "foo")) :=
  c3_duplicate_name_rejected seededState "p1" (fun _ => "r") 0
    ⟨"Foo", [], []⟩ rfl ⟨"p1", "Foo", [], [], 0, 0⟩ (by decide)
    ⟨"foo", [], []⟩ "p2" (fun _ => "r") 1 (by decide) (by decide)

lemma nocaseEq_symmB {a b : String} (h : nocaseEq a b = true) :
    nocaseEq b a = true :=
  nocaseEq_iff.mpr (nocaseEq_iff.mp h).symm

lemma nocaseEq_transB {a b c : String} (h1 : nocaseEq a b = true)
    (h2 : nocaseEq b c = true) : nocaseEq a c = true :=
  nocaseEq_iff.mpr ((nocaseEq_iff.mp h1).trans (nocaseEq_iff.mp h2))

/-- Pairwise NOCASE-distinct project names: what the UNIQUE COLLATE NOCASE
constraint of the projects table guarantees of any stored catalog. -/
def namesNocaseUnique (s : DBState) : Prop :=
  s.projects.Pairwise (fun x y => nocaseEq x.name y.name = false)

lemma pairwise_distinct_names {s : DBState} (hu : namesNocaseUnique s)
    {x y : ProjectRow} (hx : x ∈ s.projects) (hy : y ∈ s.projects)
    (hne : x ≠ y) : nocaseEq x.name y.name = false := by
  have hsym : Symmetric
      (fun a b : ProjectRow => nocaseEq a.name b.name = false) := by
    intro a b hab
    cases hc : nocaseEq b.name a.name
    · rfl
    · rw [nocaseEq_symmB hc] at hab
      simp at hab
  exact List.Pairwise.forall hsym hu hx hy hne

lemma findByName_unique (s : DBState) (n : String) (x : ProjectRow)
    (hu : namesNocaseUnique s) (hx : x ∈ s.projects)
    (hxn : nocaseEq x.name n = true) :
    findProjectRowByName s n = some x := by
  unfold findProjectRowByName
  refine find?_eq_some_unique _ _ x hx hxn ?_
  intro y hy hyn
  have hyn' : nocaseEq y.name n = true := hyn
  by_contra hne
  have htr : nocaseEq y.name x.name = true :=
    nocaseEq_transB hyn' (nocaseEq_symmB hxn)
  rw [pairwise_distinct_names hu hy hx hne] at htr
  simp at htr

lemma findById_eq (s : DBState) (id : String) (r : ProjectRow)
    (h : findProjectRow s id = some r) :
    ProjectRepository.findById s id = some (hydrateProject s r) := by
  unfold ProjectRepository.findById
  rw [h]
  rfl

lemma renameRow_id (id n : String) (now : Nat) (r : ProjectRow) :
    (renameRow id n now r).id = r.id := by
  unfold renameRow
  split <;> rfl

lemma rename_ok (s : DBState) (id n : String) (now : Nat) (r : ProjectRow)
    (hrow : findProjectRow s id = some r) (hu : namesNocaseUnique s)
    (hn : nocaseEq n r.name = true) :
    updateProjectNameRow s id n now =
      .ok { s with projects := s.projects.map (renameRow id n now) } := by
  have hrow' : s.projects.find? (fun rr => rr.id == id) = some r := hrow
  have hrmem : r ∈ s.projects := List.mem_of_find?_eq_some hrow'
  have hrid : (r.id == id) = true := by
    have hp := List.find?_some hrow'
    simpa using hp
  have hany : s.projects.any (fun rr => rr.id == id) = true :=
    List.any_eq_true.mpr ⟨r, hrmem, hrid⟩
  have hconf : s.projects.any
      (fun rr => !(rr.id == id) && nocaseEq rr.name n) = false := by
    cases hc : s.projects.any
        (fun rr => !(rr.id == id) && nocaseEq rr.name n)
    · rfl
    · exfalso
      obtain ⟨rr, hmem, hb⟩ := List.any_eq_true.mp hc
      have hb' : (!(rr.id == id) && nocaseEq rr.name n) = true := hb
      simp only [Bool.and_eq_true] at hb'
      obtain ⟨hb1, hb2⟩ := hb'
      have hrrne : rr ≠ r := by
        intro hcon
        subst hcon
        rw [hrid] at hb1
        simp at hb1
      have htr : nocaseEq rr.name r.name = true :=
        nocaseEq_transB hb2 hn
      rw [pairwise_distinct_names hu hmem hrmem hrrne] at htr
      simp at htr
  unfold updateProjectNameRow
  rw [if_pos hany, if_neg (by simp [hconf])]

lemma updateProject_self_rename_ok (s : DBState) (id : String)
    (gen : Nat → String) (now : Nat) (n : String) (r : ProjectRow)
    (hrow : findProjectRow s id = some r) (hu : namesNocaseUnique s)
    (hn : nocaseEq n r.name = true)
    (hval : validateProjectData ⟨some n, none, none⟩ = []) :
    ∃ p, (ProjectManager.updateProject s id gen now
      ⟨some n, none, none⟩).2 = .ok p := by
  have hrow' : s.projects.find? (fun rr => rr.id == id) = some r := hrow
  have hrmem : r ∈ s.projects := List.mem_of_find?_eq_some hrow'
  have hrid : (r.id == id) = true := by
    have hp := List.find?_some hrow'
    simpa using hp
  unfold ProjectManager.updateProject
  rw [if_pos (by rw [hval]; rfl), findById_eq s id r hrow]
  dsimp only
  have hdup : dupNameCheck s id (hydrateProject s r).name (some n) =
      none := by
    unfold dupNameCheck
    dsimp only
    by_cases he : (n == (hydrateProject s r).name) = true
    · simp [he]
    · have he' : (n == (hydrateProject s r).name) = false := by
        cases hq : (n == (hydrateProject s r).name)
        · rfl
        · exact absurd hq he
      have hne : (n == "") = false := by
        cases hq : (n == "")
        · rfl
        · exfalso
          have hq' : n = "" := eq_of_beq hq
          subst hq'
          exact absurd hval (by decide)
      rw [if_pos (by rw [hne, he']; rfl)]
      have hfbn : ProjectRepository.findByName s n =
          some (hydrateProject s r) := by
        unfold ProjectRepository.findByName
        rw [findByName_unique s n r hu hrmem (nocaseEq_symmB hn)]
        rfl
      rw [hfbn]
      dsimp only
      have hdid : ((hydrateProject s r).id == id) = true := by
        show (r.id == id) = true
        exact hrid
      simp [hdid]
  rw [hdup]
  dsimp only
  unfold ProjectRepository.update
  dsimp only
  rw [rename_ok s id n now r hrow hu hn]
  dsimp only
  have hfind : findProjectRow
      { s with projects := s.projects.map (renameRow id n now) } id =
      some (renameRow id n now r) := by
    show (s.projects.map (renameRow id n now)).find?
      (fun rr => rr.id == id) = some (renameRow id n now r)
    rw [find?_id_map s.projects id (renameRow id n now)
      (renameRow_id id n now), hrow']
    rfl
  rw [hfind]
  exact ⟨_, rfl⟩

lemma updateProject_cross_rename_dup (s : DBState) (id : String)
    (gen : Nat → String) (now : Nat) (n : String) (r other : ProjectRow)
    (hrow : findProjectRow s id = some r) (hu : namesNocaseUnique s)
    (hother : other ∈ s.projects) (hoid : other.id ≠ id)
    (hn : nocaseEq n other.name = true)
    (hval : validateProjectData ⟨some n, none, none⟩ = []) :
    ProjectManager.updateProject s id gen now ⟨some n, none, none⟩ =
      (s, .error (.duplicateName n)) := by
  have hrow' : s.projects.find? (fun rr => rr.id == id) = some r := hrow
  have hrmem : r ∈ s.projects := List.mem_of_find?_eq_some hrow'
  have hrid : (r.id == id) = true := by
    have hp := List.find?_some hrow'
    simpa using hp
  have hrideq : r.id = id := eq_of_beq hrid
  have hrother : other ≠ r := by
    intro hcon
    exact hoid (hcon ▸ hrideq)
  unfold ProjectManager.updateProject
  rw [if_pos (by rw [hval]; rfl), findById_eq s id r hrow]
  dsimp only
  have hdup : dupNameCheck s id (hydrateProject s r).name (some n) =
      some (.duplicateName n) := by
    unfold dupNameCheck
    dsimp only
    have hne : (n == "") = false := by
      cases hq : (n == "")
      · rfl
      · exfalso
        have hq' : n = "" := eq_of_beq hq
        subst hq'
        exact absurd hval (by decide)
    have hnr : (n == (hydrateProject s r).name) = false := by
      cases hq : (n == (hydrateProject s r).name)
      · rfl
      · exfalso
        have heqn : n = r.name := eq_of_beq hq
        have htr : nocaseEq r.name other.name = true := by
          rw [← heqn]
          exact hn
        rw [pairwise_distinct_names hu hrmem hother
          (Ne.symm hrother)] at htr
        simp at htr
    rw [if_pos (by rw [hne, hnr]; rfl)]
    have hfbn : ProjectRepository.findByName s n =
        some (hydrateProject s other) := by
      unfold ProjectRepository.findByName
      rw [findByName_unique s n other hu hother (nocaseEq_symmB hn)]
      rfl
    rw [hfbn]
    dsimp only
    have hoidb : ((hydrateProject s other).id == id) = false := by
      show (other.id == id) = false
      cases hq : (other.id == id)
      · rfl
      · exact absurd (eq_of_beq hq) hoid
    simp [hoidb]
  rw [hdup]

/-- Claim C7: in a catalog with NOCASE-unique names, updateProject with a
name that NOCASE-matches the target's own current name (identical or a
pure case variant) succeeds and is not rejected as a duplicate, while a
name that NOCASE-matches a different project's name fails with the
duplicate-name error. -/
theorem c7_rename_case_insensitive_rules :
    (∀ (s : DBState) (id : String) (gen : Nat → String) (now : Nat)
      (n : String) (r : ProjectRow), findProjectRow s id = some r →
      namesNocaseUnique s → nocaseEq n r.name = true →
      validateProjectData ⟨some n, none, none⟩ = [] →
      ∃ p, (ProjectManager.updateProject s id gen now
        ⟨some n, none, none⟩).2 = .ok p) ∧
    (∀ (s : DBState) (id : String) (gen : Nat → String) (now : Nat)
      (n : String) (r other : ProjectRow), findProjectRow s id = some r →
      namesNocaseUnique s → other ∈ s.projects → other.id ≠ id →
      nocaseEq n other.name = true →
      validateProjectData ⟨some n, none, none⟩ = [] →
      ProjectManager.updateProject s id gen now ⟨some n, none, none⟩ =
        (s, .error (.duplicateName n))) :=
  ⟨updateProject_self_rename_ok, updateProject_cross_rename_dup⟩

/-- The C7 witness state: two projects named "Foo" and "Bar". -/
def c7State : DBState :=
  { projects := [⟨"p1", "Foo", 0, 0⟩, ⟨"p2", "Bar", 1, 1⟩]
    project_tags := []
    project_repositories := []
    app_metadata := [("schema_version", "1"), ("active_project_id", "null")] }

/-- Witness for C7: renaming p1 ("Foo") to its own case variant "FOO"
succeeds; renaming p1 to "bar" (a case variant of p2's name) is rejected
as a duplicate. -/
theorem c7_rename_case_insensitive_rules_witness :
    (∃ p, (ProjectManager.updateProject c7State "p1" (fun _ => "r") 7
      ⟨some "FOO", none, none⟩).2 = .ok p) ∧
    ProjectManager.updateProject c7State "p1" (fun _ => "r") 7
        ⟨some "bar", none, none⟩ =
      (c7State, .error (.duplicateName "bar")) := by
  constructor
  · exact c7_rename_case_insensitive_rules.1 c7State "p1" (fun _ => "r") 7
      "FOO" ⟨"p1", "Foo", 0, 0⟩ (by decide)
      (by unfold namesNocaseUnique; decide) (by decide) (by decide)
  · exact c7_rename_case_insensitive_rules.2 c7State "p1" (fun _ => "r") 7
      "bar" ⟨"p1", "Foo", 0, 0⟩ ⟨"p2", "Bar", 1, 1⟩ (by decide)
      (by unfold namesNocaseUnique; decide) (by decide) (by decide)
      (by decide) (by decide)
